import Mathlib

/-! Verification development for the InfiniBand operator charm
(src/src/charm.py and src/src/infiniband_ops_manager.py).

The Python modules are shallowly embedded as Lean functions over an explicit
environment (the outcomes of external commands and HTTP requests) and an
explicit state (a small filesystem plus a trace of the external effects that
were actually performed).  Two facts about the Python standard library are
load-bearing for this embedding and are encoded faithfully:

1. `subprocess.run(cmd)` called WITHOUT `check=True` returns a
   `CompletedProcess` whatever the exit status of `cmd` is; it raises
   `CalledProcessError` only when `check=True` is passed.  None of the
   `run(...)` call sites in src/src/infiniband_ops_manager.py passes
   `check=True`, so every `try: run(...) except CalledProcessError: ...`
   block in that file has an unreachable handler: a non-zero exit status is
   silently ignored and execution continues.  `subprocess.check_output(cmd)`
   DOES raise `CalledProcessError` on a non-zero exit status.

2. `requests.get(url)` raises `requests.exceptions.ConnectionError` (or
   another `RequestException`) on a network-level failure and does NOT raise
   `requests.exceptions.HTTPError` for an HTTP error status; `HTTPError` is
   raised only by `Response.raise_for_status`, which this code never calls.
   The embedding keeps both raise channels so that the selectivity of the
   `except requests.exceptions.HTTPError` clauses is visible.
-/

/-- The Python exception kinds that can escape from the embedded code.
`infinibandOpsError` is the single project-defined error kind
(class `InfinibandOpsError` in src/src/infiniband_ops_manager.py); the other
constructors are builtin / library exception classes. -/
inductive PyErr where
  | infinibandOpsError (message : String)
  | calledProcessError
  | valueError
  | attributeError (name : String)
  | connectionError
  | httpError
  | fileNotFoundError (path : String)
deriving DecidableEq

/-- Raise channel of `requests.get`: a network-level failure raises
`ConnectionError`; the `HTTPError` channel exists in the exception hierarchy
(it is what the code tries to catch) but `requests.get` itself only raises it
in degenerate situations, never merely for an HTTP error status. -/
inductive HttpFail where
  | httpRaise
  | connRaise
deriving DecidableEq

/-- One externally visible effect performed by the embedded code. -/
inductive Event where
  | run (cmd : List String)
  | checkOutput (cmd : List String)
  | httpGet (url : String)
  | unlink (path : String)
  | rename (src : String) (dst : String)
  | writeText (path : String) (content : String)
deriving DecidableEq

/-- The environment: what the outside world answers to each external request.
`runExit` is the exit status a `subprocess.run` invocation would observe,
`checkOut` the outcome of `subprocess.check_output` (error = non-zero exit,
i.e. `CalledProcessError`), `http` the outcome of `requests.get`. -/
structure Env where
  runExit : List String → Int
  checkOut : List String → Except Unit String
  http : String → Except HttpFail String

/-- A filesystem (association of absolute paths to file contents). -/
def Fs := List (String × String)

/-- First-match lookup of a path. -/
def fsLookup : List (String × String) → String → Option String
  | [], _ => none
  | (q, c) :: rest, p => if q = p then some c else fsLookup rest p

/-- `Path.exists()`. -/
def fsExists (fs : List (String × String)) (p : String) : Bool :=
  (fsLookup fs p).isSome

/-- Remove every entry for a path (`Path.unlink()` on the model). -/
def fsErase : List (String × String) → String → List (String × String)
  | [], _ => []
  | (q, c) :: rest, p => if q = p then fsErase rest p else (q, c) :: fsErase rest p

/-- Create or overwrite a file (`Path.write_text` / the target of a rename). -/
def fsWrite (fs : List (String × String)) (p : String) (c : String) :
    List (String × String) :=
  (p, c) :: fsErase fs p

/-- Program state: the filesystem and the trace of performed effects. -/
structure St where
  fs : List (String × String)
  trace : List Event
deriving DecidableEq

/-- `subprocess.run(cmd)`: performs the command and ignores its exit status.
No `run` call site in the source passes `check=True`, so this never raises
`CalledProcessError` (fact 1 of the module comment). -/
def stRun (_env : Env) (s : St) (cmd : List String) : St :=
  { s with trace := s.trace ++ [Event.run cmd] }

/-- `Path.unlink()`. -/
def stUnlink (s : St) (p : String) : St :=
  { fs := fsErase s.fs p, trace := s.trace ++ [Event.unlink p] }

/-- `Path.write_text(c)`. -/
def stWrite (s : St) (p : String) (c : String) : St :=
  { fs := fsWrite s.fs p c, trace := s.trace ++ [Event.writeText p c] }

/-- `src.rename(dst)`: moves the file at `src` over `dst` (POSIX rename
overwrites an existing destination); raises `FileNotFoundError` when the
source does not exist. -/
def stRename (s : St) (src : String) (dst : String) : Except PyErr Unit × St :=
  let s' : St := { s with trace := s.trace ++ [Event.rename src dst] }
  match fsLookup s.fs src with
  | none => (Except.error (PyErr.fileNotFoundError src), s')
  | some c =>
      (Except.ok (), { fs := fsWrite (fsErase s.fs src) dst c, trace := s'.trace })

/-- Python `str.strip(chars)`: removes leading and trailing characters drawn
from the character set `cs` (not a literal prefix/suffix). -/
def pyStripChars (cs : List Char) (s : String) : String :=
  String.mk (((s.data.dropWhile (fun c => cs.contains c)).reverse.dropWhile
    (fun c => cs.contains c)).reverse)

/-- Python `str.strip()` with no argument: strip ASCII whitespace from both
ends (the whitespace characters relevant to this repository's inputs). -/
def pyStrip (s : String) : String :=
  pyStripChars [' ', '\t', '\n', '\r', '\x0b', '\x0c'] s

/-- Python `str.lower()` restricted to ASCII (all strings this code lowers
are ASCII command output). -/
def pyLower (s : String) : String :=
  String.mk (s.data.map (fun c =>
    if 'A' ≤ c ∧ c ≤ 'Z' then Char.ofNat (c.toNat + 32) else c))

/-- Helper for `pySplitChar`: accumulates the current field (reversed). -/
def pySplitCharAux (sep : Char) : List Char → List Char → List String
  | [], acc => [String.mk acc.reverse]
  | c :: rest, acc =>
      if c = sep then String.mk acc.reverse :: pySplitCharAux sep rest []
      else pySplitCharAux sep rest (c :: acc)

/-- Python `str.split(sep)` for a one-character separator (the only kind the
source uses: `split("=")` and `split("\n")`): splits at every occurrence and
keeps empty fields; the split of `""` is `[""]`. -/
def pySplitChar (s : String) (sep : Char) : List String :=
  pySplitCharAux sep s.data []

/-- Python `v.strip('"')` as used on the values of `os_release`. -/
def stripQuotes (v : String) : String := pyStripChars ['"'] v

/-- The lines fed to the comprehension in `os_release`
(`os_release_data.strip().split("\n")` with empty items removed). -/
def osReleaseLines (text : String) : List String :=
  (pySplitChar (pyStrip text) '\n').filter (fun item => !(item == ""))

/-- Tuple unpacking `for k, v in os_release_list` applied to one
`item.split("=")` result: exactly two parts bind `(k, v)` (the value gets its
surrounding double quotes stripped); any other arity raises `ValueError`. -/
def unpackAssign : List String → Except PyErr (String × String)
  | [k, v] => Except.ok (k, stripQuotes v)
  | _ => Except.error PyErr.valueError

/-- The pairs produced, in order, by the dict comprehension in `os_release`;
the first line whose `split("=")` does not have exactly two parts raises. -/
def parsePairs : List String → Except PyErr (List (String × String))
  | [] => Except.ok []
  | item :: rest =>
      match unpackAssign (pySplitChar item '=') with
      | Except.error e => Except.error e
      | Except.ok kv =>
          match parsePairs rest with
          | Except.error e => Except.error e
          | Except.ok kvs => Except.ok (kv :: kvs)

/-- Insertion into a Python dict: re-assigning an existing key updates it in
place, a new key is appended. -/
def pyDictInsert : List (String × String) → String × String → List (String × String)
  | [], kv => [kv]
  | (k, v) :: rest, kv =>
      if k = kv.1 then (k, kv.2) :: rest else (k, v) :: pyDictInsert rest kv

/-- Building a Python dict from a sequence of pairs. -/
def pyDict (pairs : List (String × String)) : List (String × String) :=
  pairs.foldl pyDictInsert []

/-- `os_release()` from src/src/infiniband_ops_manager.py, as a function of
the text of /etc/os-release.  Note the code has no exception handling here:
a malformed line escapes as a bare `ValueError` from tuple unpacking. -/
def os_release (text : String) : Except PyErr (List (String × String)) :=
  match parsePairs (osReleaseLines text) with
  | Except.error e => Except.error e
  | Except.ok pairs => Except.ok (pyDict pairs)

/-- `uname_r()`: `check_output(["/usr/bin/uname", "-r"])`, decoded and
trimmed; `CalledProcessError` is translated to `InfinibandOpsError`. -/
def uname_r (env : Env) (s : St) : Except PyErr String × St :=
  let s' : St := { s with trace := s.trace ++ [Event.checkOutput ["/usr/bin/uname", "-r"]] }
  match env.checkOut ["/usr/bin/uname", "-r"] with
  | Except.ok out => (Except.ok (pyStrip out), s')
  | Except.error _ =>
      (Except.error (PyErr.infinibandOpsError "Error detecting kernel version."), s')

/-- `arch()`: `check_output(["/bin/arch"])`, decoded and trimmed. -/
def arch (env : Env) (s : St) : Except PyErr String × St :=
  let s' : St := { s with trace := s.trace ++ [Event.checkOutput ["/bin/arch"]] }
  match env.checkOut ["/bin/arch"] with
  | Except.ok out => (Except.ok (pyStrip out), s')
  | Except.error _ =>
      (Except.error (PyErr.infinibandOpsError "Error detecting system architecture."), s')

namespace InfinibandOpsManagerBase

/-- `self._driver_package`. -/
def driver_package : String := "mlnx-ofed-all"

/-- `self._ib_systemd_service`. -/
def ib_systemd_service : String := "openibd.service"

/-- The character set of `strip("MLNX_OFED_LINUX-:\n")` in `version()`. -/
def ofedStripSet : List Char := "MLNX_OFED_LINUX-:\n".data

/-- `version()`: `check_output(["ofed_info", "-s"])`; on `CalledProcessError`
raise the "not installed" `InfinibandOpsError`; otherwise return
`version.decode().strip("MLNX_OFED_LINUX-:\n")` — a both-ends strip of the
character SET of that string, not removal of a literal prefix/suffix. -/
def version (env : Env) : Except PyErr String :=
  match env.checkOut ["ofed_info", "-s"] with
  | Except.error _ =>
      Except.error (PyErr.infinibandOpsError
        "Cannot return version for package that isn't installed.")
  | Except.ok out => Except.ok (pyStripChars ofedStripSet out)

/-- `modprobe(modules)`: `for module in modules: run(["modprobe", module])`.
The surrounding `try/except CalledProcessError` (which would raise
`InfinibandOpsError(f"Error modprobing {module}")`) has an unreachable
handler because `run` is called without `check=True` (fact 1 of the module
comment): every module is attempted and no failure is ever reported. -/
def modprobe (env : Env) (modules : List String) (s : St) : Except PyErr Unit × St :=
  match modules with
  | [] => (Except.ok (), s)
  | m :: rest => modprobe env rest (stRun env s ["modprobe", m])

/-- `start()`: fire-and-forget `systemctl start`. -/
def start (env : Env) (s : St) : St :=
  stRun env s ["systemctl", "start", ib_systemd_service]

/-- `enable()`: fire-and-forget `systemctl enable`. -/
def enable (env : Env) (s : St) : St :=
  stRun env s ["systemctl", "enable", ib_systemd_service]

/-- `stop()`: fire-and-forget `systemctl stop`. -/
def stop (env : Env) (s : St) : St :=
  stRun env s ["systemctl", "stop", ib_systemd_service]

/-- `is_active()`: `check_output(["systemctl", "is-active", ...])`; returns
`"active" == r.decode().strip().lower()`, and on `CalledProcessError` logs
and returns `False`.  The Lean type `Bool` reflects that it never raises. -/
def is_active (env : Env) : Bool :=
  match env.checkOut ["systemctl", "is-active", ib_systemd_service] with
  | Except.ok r => "active" == pyLower (pyStrip r)
  | Except.error _ => false

end InfinibandOpsManagerBase

namespace InfinibandOpsManagerUbuntu

/-- `self._driver_repo_filepath` of the Ubuntu variant. -/
def driver_repo_filepath : String := "/etc/apt/sources.list.d/infiniband.list"

/-- The hardcoded GPG key URL of `_set_repository`. -/
def key_url : String := "http://www.mellanox.com/downloads/ofed/RPM-GPG-KEY-Mellanox"

/-- The temporary key file `Path(f"{tmpdir}/mellanox.gpg")` inside the
`tempfile.TemporaryDirectory()` scope (the directory name is fresh; a fixed
representative is used since only its distinctness from the repo paths
matters). -/
def tmp_key_path : String := "/tmp/tmpdir0/mellanox.gpg"

/-- `InfinibandOpsManagerUbuntu._set_repository(repo_path)`:
delete a pre-existing repo file; rename the supplied file over the fixed
destination, or raise `InfinibandOpsError("No InfiniBand repository
provided")` when `repo_path is None`; then fetch the GPG key (the
`except requests.exceptions.HTTPError` clause catches only the `HTTPError`
raise channel — a `ConnectionError` escapes), write it to the temporary
file and `run(["apt-key", "add", ...])` (whose `except CalledProcessError`
handler is unreachable, fact 1 of the module comment).  The
`TemporaryDirectory` context removes the temporary file on exit. -/
def _set_repository (env : Env) (repo_path : Option String) (s : St) :
    Except PyErr Unit × St :=
  let s := if fsExists s.fs driver_repo_filepath then stUnlink s driver_repo_filepath else s
  match repo_path with
  | none => (Except.error (PyErr.infinibandOpsError "No InfiniBand repository provided"), s)
  | some p =>
      match stRename s p driver_repo_filepath with
      | (Except.error e, s) => (Except.error e, s)
      | (Except.ok _, s) =>
          let s : St := { s with trace := s.trace ++ [Event.httpGet key_url] }
          match env.http key_url with
          | Except.error HttpFail.httpRaise =>
              (Except.error (PyErr.infinibandOpsError
                ("Error getting InfiniBand GPG key " ++ key_url)), s)
          | Except.error HttpFail.connRaise => (Except.error PyErr.connectionError, s)
          | Except.ok keyText =>
              let s := stWrite s tmp_key_path keyText
              let s := stRun env s ["apt-key", "add", tmp_key_path]
              let s := stUnlink s tmp_key_path
              (Except.ok (), s)

/-- `InfinibandOpsManagerUbuntu.install(repo_path)`: `_set_repository`, then
`apt-get update`, then kernel headers for `uname_r()`, then the driver
package.  All three `apt-get` invocations use `run` without `check=True`, so
their `except CalledProcessError` handlers (the errors "Error running
`apt-get update`", "Error installing kernel headers", "Error installing
InfiniBand drivers") are unreachable: a non-zero exit continues to the next
step (fact 1 of the module comment). -/
def install (env : Env) (repo_path : Option String) (s : St) : Except PyErr Unit × St :=
  match _set_repository env repo_path s with
  | (Except.error e, s) => (Except.error e, s)
  | (Except.ok _, s) =>
      let s := stRun env s ["apt-get", "update"]
      match uname_r env s with
      | (Except.error e, s) => (Except.error e, s)
      | (Except.ok uname, s) =>
          let s := stRun env s ["apt-get", "install", "-y", "linux-headers-" ++ uname]
          let s := stRun env s
            ["apt-get", "install", "-y", InfinibandOpsManagerBase.driver_package]
          (Except.ok (), s)

/-- `InfinibandOpsManagerUbuntu.remove()`: purge the driver package, delete
the repo file if present, `apt-get update`.  Both `run` calls have
unreachable `except CalledProcessError` handlers (fact 1). -/
def remove (env : Env) (s : St) : Except PyErr Unit × St :=
  let s := stRun env s
    ["apt-get", "-y", "remove", "--purge", InfinibandOpsManagerBase.driver_package]
  let s := if fsExists s.fs driver_repo_filepath then stUnlink s driver_repo_filepath else s
  let s := stRun env s ["apt-get", "update"]
  (Except.ok (), s)

end InfinibandOpsManagerUbuntu

namespace InfinibandOpsManagerCentos

/-- `self._driver_repo_filepath` of the Centos variant. -/
def driver_repo_filepath : String := "/etc/yum.repos.d/infiniband.repo"

/-- The hardcoded default repository-definition URL of `_set_repository`. -/
def repo_url : String :=
  "http://linux.mellanox.com/public/repo/mlnx_ofed/5.8-1.1.2.1/rhel7.9/mellanox_mlnx_ofed.repo"

/-- `InfinibandOpsManagerCentos._set_repository(repo_path)`: delete a
pre-existing repo file; rename the supplied file over the fixed destination,
or — when `repo_path is None` — fetch the default repository definition and
`write_text` its body verbatim to the destination (the `except
requests.exceptions.HTTPError` clause catches only the `HTTPError` raise
channel). -/
def _set_repository (env : Env) (repo_path : Option String) (s : St) :
    Except PyErr Unit × St :=
  let s := if fsExists s.fs driver_repo_filepath then stUnlink s driver_repo_filepath else s
  match repo_path with
  | some p => stRename s p driver_repo_filepath
  | none =>
      let s : St := { s with trace := s.trace ++ [Event.httpGet repo_url] }
      match env.http repo_url with
      | Except.error HttpFail.httpRaise =>
          (Except.error (PyErr.infinibandOpsError
            ("Error getting InfiniBand repository from " ++ repo_url)), s)
      | Except.error HttpFail.connRaise => (Except.error PyErr.connectionError, s)
      | Except.ok body => (Except.ok (), stWrite s driver_repo_filepath body)

/-- `InfinibandOpsManagerCentos.install(repo_path)`: `_set_repository`, then
`yum clean expire-cache`, then kernel devel/headers for `uname_r()`, then
the driver package.  As in the Ubuntu variant, all three `yum` invocations
use `run` without `check=True`, so their `except CalledProcessError`
handlers are unreachable (fact 1 of the module comment). -/
def install (env : Env) (repo_path : Option String) (s : St) : Except PyErr Unit × St :=
  match _set_repository env repo_path s with
  | (Except.error e, s) => (Except.error e, s)
  | (Except.ok _, s) =>
      let s := stRun env s ["yum", "clean", "expire-cache"]
      match uname_r env s with
      | (Except.error e, s) => (Except.error e, s)
      | (Except.ok uname, s) =>
          let s := stRun env s
            ["yum", "install", "-y", "kernel-devel-" ++ uname, "kernel-headers-" ++ uname]
          let s := stRun env s
            ["yum", "install", "-y", InfinibandOpsManagerBase.driver_package]
          (Except.ok (), s)

/-- `InfinibandOpsManagerCentos.remove()`: `yum erase` the driver package,
delete the repo file if present, `yum clean expire-cache`.  Both `run` calls
have unreachable `except CalledProcessError` handlers (fact 1). -/
def remove (env : Env) (s : St) : Except PyErr Unit × St :=
  let s := stRun env s
    ["yum", "erase", "-y", InfinibandOpsManagerBase.driver_package]
  let s := if fsExists s.fs driver_repo_filepath then stUnlink s driver_repo_filepath else s
  let s := stRun env s ["yum", "clean", "expire-cache"]
  (Except.ok (), s)

end InfinibandOpsManagerCentos

/-- The attribute names defined on the ops-manager classes of
src/src/infiniband_ops_manager.py (methods of `InfinibandOpsManagerBase` and
of the two subclasses, plus the instance attributes set in `__init__`).
Notably, no class defines an `ibstatus` method. -/
def managerAttributeNames : List String :=
  ["_driver_package", "_ib_systemd_service", "_driver_repo_filepath",
   "install", "remove", "version", "modprobe", "start", "enable", "stop",
   "is_active", "_set_repository"]

/-- Python attribute lookup `manager.<name>` on an ops-manager instance:
an undefined attribute raises `AttributeError`. -/
def getattrManager (name : String) : Except PyErr Unit :=
  if name ∈ managerAttributeNames then Except.ok () else Except.error (PyErr.attributeError name)

/-- `InfinibandOperator.ibstatus_action` (src/src/charm.py lines 111-114):
`status = self._infiniband_ops_manager.ibstatus()` followed by
`event.set_results({"infiniband-status": status})`.  Python resolves the
attribute `"ibstatus"` on the manager before any call can happen; no class
in src/src/infiniband_ops_manager.py defines `ibstatus`, so the lookup
raises `AttributeError` and `set_results` is never reached.  The `ok` branch
(unreachable on this source, as the theorems show) is modelled from the
spec: the status-query operation would run the `ibstatus` command and return
its output verbatim under the single result key `"infiniband-status"`. -/
def ibstatus_action (env : Env) (s : St) :
    Except PyErr (List (String × String)) × St :=
  match getattrManager "ibstatus" with
  | Except.error e => (Except.error e, s)
  | Except.ok _ =>
      let s : St := { s with trace := s.trace ++ [Event.checkOutput ["ibstatus"]] }
      match env.checkOut ["ibstatus"] with
      | Except.ok out => (Except.ok [("infiniband-status", out)], s)
      | Except.error _ => (Except.error PyErr.calledProcessError, s)

/-- Spec-side description of the entry contributed by one well-formed
os-release line (exactly one `=`-split point): the key, and the value with
its surrounding double quotes stripped.  Used to state what `os_release`
returns on well-formed input. -/
def lineEntry (line : String) : String × String :=
  ((pySplitChar line '=').headD "", stripQuotes ((pySplitChar line '=').getD 1 ""))

/-- Environment in which every command invoked through `subprocess.run`
exits with status 1, while `uname -r` and the HTTP fetches succeed.  Used to
exercise the handling of failing package-manager steps. -/
def envRunsFail : Env :=
  { runExit := fun _ => 1
    checkOut := fun cmd =>
      if cmd = ["/usr/bin/uname", "-r"] then Except.ok "5.15.0-86-generic\n"
      else Except.error ()
    http := fun _ => Except.ok "KEYDATA" }

/-- Environment in which exactly the command `modprobe b` exits non-zero. -/
def envModprobeB : Env :=
  { runExit := fun cmd => if cmd = ["modprobe", "b"] then 1 else 0
    checkOut := fun _ => Except.error ()
    http := fun _ => Except.error HttpFail.connRaise }

/-- Environment in which every external command succeeds: `uname -r` reports
a CentOS 7 kernel and every HTTP fetch returns the body "REPOBODY". -/
def envHappy : Env :=
  { runExit := fun _ => 0
    checkOut := fun cmd =>
      if cmd = ["/usr/bin/uname", "-r"] then Except.ok "3.10.0-1160.el7.x86_64\n"
      else Except.error ()
    http := fun _ => Except.ok "REPOBODY" }

/-- Environment in which `ofed_info -s` prints the spec's example output. -/
def envOfed : Env :=
  { runExit := fun _ => 0
    checkOut := fun cmd =>
      if cmd = ["ofed_info", "-s"] then Except.ok "MLNX_OFED_LINUX-5.8-1.1.2.1:\n"
      else Except.error ()
    http := fun _ => Except.error HttpFail.connRaise }

/-- Environment in which every `check_output` command exits non-zero. -/
def envCheckFail : Env :=
  { runExit := fun _ => 0
    checkOut := fun _ => Except.error ()
    http := fun _ => Except.error HttpFail.connRaise }

/-- Environment in which `ofed_info -s` prints a version whose own tail
characters fall in the strip set of `version()`. -/
def envOfedLMN : Env :=
  { runExit := fun _ => 0
    checkOut := fun cmd =>
      if cmd = ["ofed_info", "-s"] then Except.ok "MLNX_OFED_LINUX-5.8-1.1.2.1-LMN:\n"
      else Except.error ()
    http := fun _ => Except.error HttpFail.connRaise }

/-- Environment in which `systemctl is-active` prints `" ACTIVE \n"`. -/
def envActive : Env :=
  { runExit := fun _ => 0
    checkOut := fun _ => Except.ok " ACTIVE \n"
    http := fun _ => Except.error HttpFail.connRaise }

theorem fsLookup_fsErase (fs : List (String × String)) (p q : String) :
    fsLookup (fsErase fs p) q = if p = q then none else fsLookup fs q := by
  induction fs with
  | nil => simp [fsErase, fsLookup]
  | cons kv rest ih =>
      obtain ⟨k, c⟩ := kv
      by_cases hk : k = p <;> by_cases hq : k = q <;>
        simp_all [fsErase, fsLookup]
      exact fun h => hk h.symm

theorem fsLookup_fsWrite (fs : List (String × String)) (p c q : String) :
    fsLookup (fsWrite fs p c) q = if p = q then some c else fsLookup fs q := by
  by_cases h : p = q
  · subst h; simp [fsWrite, fsLookup]
  · simp [fsWrite, fsLookup, if_neg h, fsLookup_fsErase]

theorem fsExists_false_iff (fs : List (String × String)) (p : String) :
    fsExists fs p = false ↔ fsLookup fs p = none := by
  unfold fsExists
  cases fsLookup fs p <;> simp

theorem fsErase_of_not_exists (fs : List (String × String)) (p : String)
    (h : fsExists fs p = false) : fsErase fs p = fs := by
  rw [fsExists_false_iff] at h
  induction fs with
  | nil => rfl
  | cons kv rest ih =>
      obtain ⟨k, c⟩ := kv
      simp only [fsLookup] at h
      by_cases hk : k = p
      · subst hk; simp at h
      · simp only [fsErase, if_neg hk]
        rw [ih]
        simpa [if_neg hk] using h

theorem uname_r_snd_fs (env : Env) (s : St) : (uname_r env s).2.fs = s.fs := by
  unfold uname_r
  cases env.checkOut ["/usr/bin/uname", "-r"] <;> rfl

theorem uname_r_snd_trace (env : Env) (s : St) :
    (uname_r env s).2.trace = s.trace ++ [Event.checkOutput ["/usr/bin/uname", "-r"]] := by
  unfold uname_r
  cases env.checkOut ["/usr/bin/uname", "-r"] <;> rfl

/-- C2: the claim says `modprobe` fails fast, naming the first module whose
command exits non-zero and never attempting the later ones.  The code does
not: `run(["modprobe", module])` is called without `check=True`, so a
non-zero exit raises nothing, the `except CalledProcessError` handler (and
its `InfinibandOpsError(f"Error modprobing {module}")`) is unreachable, and
the loop always attempts every module and returns successfully.  Here,
with exactly `modprobe b` exiting 1, all of `a`, `b`, `c` are invoked and no
error is raised. -/
theorem modprobe_ignores_nonzero_exit :
    envModprobeB.runExit ["modprobe", "b"] = 1 ∧
    InfinibandOpsManagerBase.modprobe envModprobeB ["a", "b", "c"] ⟨[], []⟩ =
      (Except.ok (), ⟨[], [Event.run ["modprobe", "a"], Event.run ["modprobe", "b"],
        Event.run ["modprobe", "c"]]⟩) :=
  ⟨rfl, rfl⟩

/-- C1: the claim says each of the three package-manager steps of `install`
is independently guarded, the first non-zero exit raising a distinguished
error and aborting the remaining steps.  The code does not: all three steps
use `run` without `check=True`, so their `except CalledProcessError`
handlers are unreachable.  In an environment where EVERY `run` command exits
with status 1, both variants' `install` still executes the index refresh,
the kernel-headers install and the driver install, and returns successfully
instead of raising. -/
theorem install_steps_not_guarded :
    (∀ cmd, envRunsFail.runExit cmd = 1) ∧
    InfinibandOpsManagerUbuntu.install envRunsFail (some "/srv/repo")
        ⟨[("/srv/repo", "deb repo")], []⟩ =
      (Except.ok (), ⟨[("/etc/apt/sources.list.d/infiniband.list", "deb repo")],
        [Event.rename "/srv/repo" "/etc/apt/sources.list.d/infiniband.list",
         Event.httpGet "http://www.mellanox.com/downloads/ofed/RPM-GPG-KEY-Mellanox",
         Event.writeText "/tmp/tmpdir0/mellanox.gpg" "KEYDATA",
         Event.run ["apt-key", "add", "/tmp/tmpdir0/mellanox.gpg"],
         Event.unlink "/tmp/tmpdir0/mellanox.gpg",
         Event.run ["apt-get", "update"],
         Event.checkOutput ["/usr/bin/uname", "-r"],
         Event.run ["apt-get", "install", "-y", "linux-headers-5.15.0-86-generic"],
         Event.run ["apt-get", "install", "-y", "mlnx-ofed-all"]]⟩) ∧
    InfinibandOpsManagerCentos.install envRunsFail (some "/srv/repo")
        ⟨[("/srv/repo", "yum repo")], []⟩ =
      (Except.ok (), ⟨[("/etc/yum.repos.d/infiniband.repo", "yum repo")],
        [Event.rename "/srv/repo" "/etc/yum.repos.d/infiniband.repo",
         Event.run ["yum", "clean", "expire-cache"],
         Event.checkOutput ["/usr/bin/uname", "-r"],
         Event.run ["yum", "install", "-y", "kernel-devel-5.15.0-86-generic",
           "kernel-headers-5.15.0-86-generic"],
         Event.run ["yum", "install", "-y", "mlnx-ofed-all"]]⟩) :=
  ⟨fun _ => rfl, rfl, rfl⟩

/-- C3: the claim says the ibstatus action handler obtains the status
command's output and returns it verbatim under the single result key
"infiniband-status".  In the code, `ibstatus_action` (src/src/charm.py line
113) calls `self._infiniband_ops_manager.ibstatus()`, but no ops-manager
class in src/src/infiniband_ops_manager.py defines an `ibstatus` attribute,
so every invocation of the action raises `AttributeError` during attribute
lookup and `event.set_results` is never reached. -/
theorem ibstatus_action_attribute_error :
    "ibstatus" ∉ managerAttributeNames ∧
    ∀ (env : Env) (s : St),
      ibstatus_action env s = (Except.error (PyErr.attributeError "ibstatus"), s) := by
  constructor
  · decide
  · intro env s
    rfl

/-- C4: the claim says every failure of the core operations is surfaced as
the single error kind `InfinibandOpsError`.  Three counterexamples from the
code: (a) a malformed os-release line escapes as a bare `ValueError` from
tuple unpacking (`os_release` has no exception handling); (b) a non-zero
exit of a `run`-invoked package-manager command is not surfaced at all —
here `remove` succeeds although every external command exited 1; (c) a
network-level failure of `requests.get` raises `ConnectionError`, which the
`except requests.exceptions.HTTPError` clause does not catch, so it escapes
as a non-`InfinibandOpsError` kind from `_set_repository`. -/
theorem failures_escape_error_kind :
    os_release "ID ubuntu" = Except.error PyErr.valueError ∧
    (∀ m, PyErr.valueError ≠ PyErr.infinibandOpsError m) ∧
    (InfinibandOpsManagerUbuntu.remove envRunsFail ⟨[], []⟩).1 = Except.ok () ∧
    (InfinibandOpsManagerCentos._set_repository envCheckFail none ⟨[], []⟩).1 =
      Except.error PyErr.connectionError ∧
    (∀ m, PyErr.connectionError ≠ PyErr.infinibandOpsError m) :=
  ⟨rfl, fun _ h => PyErr.noConfusion h, rfl, rfl, fun _ h => PyErr.noConfusion h⟩

/-- C8: `version()` on the `ofed_info -s` output
`"MLNX_OFED_LINUX-5.8-1.1.2.1:\n"` returns exactly `"5.8-1.1.2.1"`, and
whenever the `ofed_info` command exits non-zero (a `CalledProcessError` from
`check_output`), it raises the distinguished "not installed"
`InfinibandOpsError`. -/
theorem version_contract (env env' : Env)
    (h : env.checkOut ["ofed_info", "-s"] = Except.ok "MLNX_OFED_LINUX-5.8-1.1.2.1:\n")
    (h' : env'.checkOut ["ofed_info", "-s"] = Except.error ()) :
    InfinibandOpsManagerBase.version env = Except.ok "5.8-1.1.2.1" ∧
    InfinibandOpsManagerBase.version env' =
      Except.error (PyErr.infinibandOpsError
        "Cannot return version for package that isn't installed.") := by
  unfold InfinibandOpsManagerBase.version
  rw [h, h']
  exact ⟨rfl, rfl⟩

theorem version_contract_witness :
    InfinibandOpsManagerBase.version envOfed = Except.ok "5.8-1.1.2.1" ∧
    InfinibandOpsManagerBase.version envCheckFail =
      Except.error (PyErr.infinibandOpsError
        "Cannot return version for package that isn't installed.") :=
  version_contract envOfed envCheckFail rfl rfl

/-- C9: `is_active()` returns true iff the `systemctl is-active` probe
succeeds and its decoded, trimmed, lower-cased output is exactly "active";
a probe failure (`CalledProcessError`) yields false.  The Lean return type
`Bool` (no `Except` channel) reflects that the function never raises. -/
theorem is_active_contract (env : Env) :
    (∀ out, env.checkOut ["systemctl", "is-active",
        InfinibandOpsManagerBase.ib_systemd_service] = Except.ok out →
      (InfinibandOpsManagerBase.is_active env = true ↔
        pyLower (pyStrip out) = "active")) ∧
    (env.checkOut ["systemctl", "is-active",
        InfinibandOpsManagerBase.ib_systemd_service] = Except.error () →
      InfinibandOpsManagerBase.is_active env = false) := by
  constructor
  · intro out h
    unfold InfinibandOpsManagerBase.is_active
    rw [h]
    show ("active" == pyLower (pyStrip out)) = true ↔ pyLower (pyStrip out) = "active"
    rw [beq_iff_eq]
    exact eq_comm
  · intro h
    unfold InfinibandOpsManagerBase.is_active
    rw [h]

theorem is_active_contract_witness :
    InfinibandOpsManagerBase.is_active envActive = true ∧
    InfinibandOpsManagerBase.is_active envCheckFail = false :=
  ⟨((is_active_contract envActive).1 " ACTIVE \n" rfl).mpr (by decide),
   (is_active_contract envCheckFail).2 rfl⟩

/-- C10: `version()` strips the character SET of `"MLNX_OFED_LINUX-:\n"`
from both ends, not the literal prefix `"MLNX_OFED_LINUX-"` plus a trailing
colon/newline: on the `ofed_info -s` output `"MLNX_OFED_LINUX-<v>:\n"` with
`<v> = "5.8-1.1.2.1-LMN"`, it returns `"5.8-1.1.2.1"`, a strict prefix of
`<v>` (the tail `"-LMN"`, made of strip-set characters, is also removed). -/
theorem version_strips_char_set :
    envOfedLMN.checkOut ["ofed_info", "-s"] =
      Except.ok ("MLNX_OFED_LINUX-" ++ "5.8-1.1.2.1-LMN" ++ ":\n") ∧
    InfinibandOpsManagerBase.version envOfedLMN = Except.ok "5.8-1.1.2.1" ∧
    "5.8-1.1.2.1-LMN" = "5.8-1.1.2.1" ++ "-LMN" ∧
    "-LMN" ≠ "" :=
  ⟨rfl, rfl, rfl, by decide⟩

theorem unpackAssign_err (xs : List String) (h : xs.length ≠ 2) :
    unpackAssign xs = Except.error PyErr.valueError := by
  cases xs with
  | nil => rfl
  | cons a t =>
      cases t with
      | nil => rfl
      | cons b t2 =>
          cases t2 with
          | nil => exact absurd rfl h
          | cons c t3 => rfl

theorem length_two_exists (xs : List String) (h : xs.length = 2) :
    ∃ a b, xs = [a, b] := by
  cases xs with
  | nil => simp at h
  | cons a t =>
      cases t with
      | nil => simp at h
      | cons b t2 =>
          cases t2 with
          | nil => exact ⟨a, b, rfl⟩
          | cons c t3 => simp at h

theorem parsePairs_error (items : List String)
    (h : ∃ l ∈ items, (pySplitChar l '=').length ≠ 2) :
    parsePairs items = Except.error PyErr.valueError := by
  induction items with
  | nil =>
      obtain ⟨l, hl, _⟩ := h
      cases hl
  | cons item rest ih =>
      obtain ⟨l, hl, hlen⟩ := h
      by_cases hi : (pySplitChar item '=').length = 2
      · obtain ⟨a, b, hab⟩ := length_two_exists _ hi
        have hrest : ∃ l ∈ rest, (pySplitChar l '=').length ≠ 2 := by
          rcases List.mem_cons.mp hl with h1 | h2
          · subst h1
            exact absurd hi hlen
          · exact ⟨l, h2, hlen⟩
        simp only [parsePairs, hab, unpackAssign, ih hrest]
      · simp only [parsePairs, unpackAssign_err _ hi]

theorem parsePairs_ok (items : List String)
    (h : ∀ l ∈ items, (pySplitChar l '=').length = 2) :
    parsePairs items = Except.ok (items.map lineEntry) := by
  induction items with
  | nil => rfl
  | cons item rest ih =>
      obtain ⟨a, b, hab⟩ := length_two_exists _ (h item (List.mem_cons_self item rest))
      have hr := ih (fun l hl => h l (List.mem_cons_of_mem item hl))
      have he : lineEntry item = (a, stripQuotes b) := by
        unfold lineEntry
        rw [hab]
        rfl
      simp only [parsePairs, hab, unpackAssign, hr, List.map, he]

/-- C5 counterexample: the claim says `os_release` raises only on a line
missing an `=` separator, and otherwise returns the mapping.  On the text
`PRETTY_NAME="CentOS=7"` the single line does contain `=`, yet the dict
comprehension's tuple unpacking sees the three-element
`split("=")` result and raises `ValueError`. -/
theorem os_release_counterexample :
    (∀ line ∈ osReleaseLines "ID=centos\nPRETTY_NAME=\"CentOS=7\"",
      '=' ∈ line.data) ∧
    os_release "ID=centos\nPRETTY_NAME=\"CentOS=7\"" =
      Except.error PyErr.valueError :=
  ⟨by decide, rfl⟩

/-- C5 (amended): `os_release()` raises an error on any line whose
`split("=")` does not have exactly two fields (no `=` at all, or more than
one `=`); otherwise it returns the key-to-value mapping of the file's lines
with surrounding double-quote characters stripped from each value. -/
theorem os_release_parse (text : String) :
    ((∃ line ∈ osReleaseLines text, (pySplitChar line '=').length ≠ 2) →
      os_release text = Except.error PyErr.valueError) ∧
    ((∀ line ∈ osReleaseLines text, (pySplitChar line '=').length = 2) →
      os_release text = Except.ok (pyDict ((osReleaseLines text).map lineEntry))) := by
  constructor
  · intro h
    unfold os_release
    rw [parsePairs_error _ h]
  · intro h
    unfold os_release
    rw [parsePairs_ok _ h]

theorem os_release_parse_witness :
    os_release "NAME=\"CentOS Linux\"\nID=\"centos\"" =
      Except.ok (pyDict ((osReleaseLines "NAME=\"CentOS Linux\"\nID=\"centos\"").map
        lineEntry)) :=
  (os_release_parse "NAME=\"CentOS Linux\"\nID=\"centos\"").2 (by decide)

theorem ubuntu_set_none (env : Env) (s : St) :
    InfinibandOpsManagerUbuntu._set_repository env none s =
      (Except.error (PyErr.infinibandOpsError "No InfiniBand repository provided"),
        if fsExists s.fs InfinibandOpsManagerUbuntu.driver_repo_filepath then
          stUnlink s InfinibandOpsManagerUbuntu.driver_repo_filepath else s) := rfl

theorem centos_set_none_ok (env : Env) (s : St) (body : String)
    (h : env.http InfinibandOpsManagerCentos.repo_url = Except.ok body) :
    InfinibandOpsManagerCentos._set_repository env none s =
      (Except.ok (), stWrite
        { fs := (if fsExists s.fs InfinibandOpsManagerCentos.driver_repo_filepath then
            stUnlink s InfinibandOpsManagerCentos.driver_repo_filepath else s).fs,
          trace := (if fsExists s.fs InfinibandOpsManagerCentos.driver_repo_filepath then
            stUnlink s InfinibandOpsManagerCentos.driver_repo_filepath else s).trace ++
            [Event.httpGet InfinibandOpsManagerCentos.repo_url] }
        InfinibandOpsManagerCentos.driver_repo_filepath body) := by
  unfold InfinibandOpsManagerCentos._set_repository
  rw [h]

theorem ubuntu_install_decomp (env : Env) (repo : Option String) (s : St) :
    (∀ q, fsLookup (InfinibandOpsManagerUbuntu.install env repo s).2.fs q =
      fsLookup (InfinibandOpsManagerUbuntu._set_repository env repo s).2.fs q) ∧
    ∃ tail, (InfinibandOpsManagerUbuntu.install env repo s).2.trace =
      (InfinibandOpsManagerUbuntu._set_repository env repo s).2.trace ++ tail := by
  rcases hset : InfinibandOpsManagerUbuntu._set_repository env repo s with ⟨r, s1⟩
  unfold InfinibandOpsManagerUbuntu.install
  rw [hset]
  cases r with
  | error e => exact ⟨fun q => rfl, [], by simp⟩
  | ok u =>
      rcases hu : uname_r env (stRun env s1 ["apt-get", "update"]) with ⟨res, s4⟩
      have h4fs : s4.fs = s1.fs := by
        have h0 := uname_r_snd_fs env (stRun env s1 ["apt-get", "update"])
        rw [hu] at h0
        exact h0
      have h4tr : s4.trace = (s1.trace ++ [Event.run ["apt-get", "update"]]) ++
          [Event.checkOutput ["/usr/bin/uname", "-r"]] := by
        have h0 := uname_r_snd_trace env (stRun env s1 ["apt-get", "update"])
        rw [hu] at h0
        exact h0
      simp only []
      rw [hu]
      cases res with
      | error e =>
          refine ⟨fun q => by simp [h4fs], ?_⟩
          exact ⟨[Event.run ["apt-get", "update"], Event.checkOutput ["/usr/bin/uname", "-r"]],
            by simp [h4tr]⟩
      | ok uname =>
          refine ⟨fun q => by simp [stRun, h4fs], ?_⟩
          refine ⟨[Event.run ["apt-get", "update"], Event.checkOutput ["/usr/bin/uname", "-r"],
            Event.run ["apt-get", "install", "-y", "linux-headers-" ++ uname],
            Event.run ["apt-get", "install", "-y", InfinibandOpsManagerBase.driver_package]], ?_⟩
          simp [stRun, h4tr]

theorem centos_install_decomp (env : Env) (repo : Option String) (s : St) :
    (∀ q, fsLookup (InfinibandOpsManagerCentos.install env repo s).2.fs q =
      fsLookup (InfinibandOpsManagerCentos._set_repository env repo s).2.fs q) ∧
    ∃ tail, (InfinibandOpsManagerCentos.install env repo s).2.trace =
      (InfinibandOpsManagerCentos._set_repository env repo s).2.trace ++ tail := by
  rcases hset : InfinibandOpsManagerCentos._set_repository env repo s with ⟨r, s1⟩
  unfold InfinibandOpsManagerCentos.install
  rw [hset]
  cases r with
  | error e => exact ⟨fun q => rfl, [], by simp⟩
  | ok u =>
      rcases hu : uname_r env (stRun env s1 ["yum", "clean", "expire-cache"]) with ⟨res, s4⟩
      have h4fs : s4.fs = s1.fs := by
        have h0 := uname_r_snd_fs env (stRun env s1 ["yum", "clean", "expire-cache"])
        rw [hu] at h0
        exact h0
      have h4tr : s4.trace = (s1.trace ++ [Event.run ["yum", "clean", "expire-cache"]]) ++
          [Event.checkOutput ["/usr/bin/uname", "-r"]] := by
        have h0 := uname_r_snd_trace env (stRun env s1 ["yum", "clean", "expire-cache"])
        rw [hu] at h0
        exact h0
      simp only []
      rw [hu]
      cases res with
      | error e =>
          refine ⟨fun q => by simp [h4fs], ?_⟩
          exact ⟨[Event.run ["yum", "clean", "expire-cache"],
            Event.checkOutput ["/usr/bin/uname", "-r"]], by simp [h4tr]⟩
      | ok uname =>
          refine ⟨fun q => by simp [stRun, h4fs], ?_⟩
          refine ⟨[Event.run ["yum", "clean", "expire-cache"],
            Event.checkOutput ["/usr/bin/uname", "-r"],
            Event.run ["yum", "install", "-y", "kernel-devel-" ++ uname,
              "kernel-headers-" ++ uname],
            Event.run ["yum", "install", "-y", InfinibandOpsManagerBase.driver_package]], ?_⟩
          simp [stRun, h4tr]

theorem centos_install_runs_clean (env : Env) (repo : Option String) (s s1 : St)
    (h : InfinibandOpsManagerCentos._set_repository env repo s = (Except.ok (), s1)) :
    Event.run ["yum", "clean", "expire-cache"] ∈
      (InfinibandOpsManagerCentos.install env repo s).2.trace := by
  unfold InfinibandOpsManagerCentos.install
  rw [h]
  rcases hu : uname_r env (stRun env s1 ["yum", "clean", "expire-cache"]) with ⟨res, s4⟩
  have h4tr : s4.trace = (s1.trace ++ [Event.run ["yum", "clean", "expire-cache"]]) ++
      [Event.checkOutput ["/usr/bin/uname", "-r"]] := by
    have h0 := uname_r_snd_trace env (stRun env s1 ["yum", "clean", "expire-cache"])
    rw [hu] at h0
    exact h0
  simp only []
  rw [hu]
  cases res with
  | error e => simp [h4tr]
  | ok uname => simp [stRun, h4tr]

theorem ubuntu_remove_deletes (env : Env) (s : St) :
    fsLookup (InfinibandOpsManagerUbuntu.remove env s).2.fs
      InfinibandOpsManagerUbuntu.driver_repo_filepath = none := by
  unfold InfinibandOpsManagerUbuntu.remove
  cases hex : fsExists s.fs InfinibandOpsManagerUbuntu.driver_repo_filepath
  · simp [stRun, hex]
    exact (fsExists_false_iff _ _).mp hex
  · simp [stRun, hex, stUnlink, fsLookup_fsErase]

theorem centos_remove_deletes (env : Env) (s : St) :
    fsLookup (InfinibandOpsManagerCentos.remove env s).2.fs
      InfinibandOpsManagerCentos.driver_repo_filepath = none := by
  unfold InfinibandOpsManagerCentos.remove
  cases hex : fsExists s.fs InfinibandOpsManagerCentos.driver_repo_filepath
  · simp [stRun, hex]
    exact (fsExists_false_iff _ _).mp hex
  · simp [stRun, hex, stUnlink, fsLookup_fsErase]

theorem ubuntu_set_some (env : Env) (s : St) (p content : String)
    (hp : fsLookup s.fs p = some content)
    (hne : p ≠ InfinibandOpsManagerUbuntu.driver_repo_filepath) :
    fsLookup (InfinibandOpsManagerUbuntu._set_repository env (some p) s).2.fs
      InfinibandOpsManagerUbuntu.driver_repo_filepath = some content ∧
    ∃ rest, (InfinibandOpsManagerUbuntu._set_repository env (some p) s).2.trace =
      s.trace ++
      (if fsExists s.fs InfinibandOpsManagerUbuntu.driver_repo_filepath then
        [Event.unlink InfinibandOpsManagerUbuntu.driver_repo_filepath] else []) ++
      Event.rename p InfinibandOpsManagerUbuntu.driver_repo_filepath :: rest := by
  have hne' : ¬ InfinibandOpsManagerUbuntu.driver_repo_filepath = p := fun h => hne h.symm
  have htmp : ¬ InfinibandOpsManagerUbuntu.driver_repo_filepath =
      InfinibandOpsManagerUbuntu.tmp_key_path := by decide
  have htmp' : ¬ InfinibandOpsManagerUbuntu.tmp_key_path =
      InfinibandOpsManagerUbuntu.driver_repo_filepath := by decide
  unfold InfinibandOpsManagerUbuntu._set_repository stRename
  cases hex : fsExists s.fs InfinibandOpsManagerUbuntu.driver_repo_filepath <;>
    rcases hh : env.http InfinibandOpsManagerUbuntu.key_url with f | body
  · cases f <;>
      exact ⟨by simp [hp, fsLookup_fsWrite],
        ⟨[Event.httpGet InfinibandOpsManagerUbuntu.key_url], by simp [hp]⟩⟩
  · exact ⟨by simp [hp, stWrite, stUnlink, stRun, fsLookup_fsWrite, fsLookup_fsErase, htmp'],
      ⟨[Event.httpGet InfinibandOpsManagerUbuntu.key_url,
        Event.writeText InfinibandOpsManagerUbuntu.tmp_key_path body,
        Event.run ["apt-key", "add", InfinibandOpsManagerUbuntu.tmp_key_path],
        Event.unlink InfinibandOpsManagerUbuntu.tmp_key_path],
       by simp [hp, stWrite, stUnlink, stRun]⟩⟩
  · cases f <;>
      exact ⟨by simp [hp, stUnlink, fsLookup_fsWrite, fsLookup_fsErase, hne'],
        ⟨[Event.httpGet InfinibandOpsManagerUbuntu.key_url],
         by simp [hp, stUnlink, fsLookup_fsErase, hne']⟩⟩
  · exact ⟨by simp [hp, stWrite, stUnlink, stRun, fsLookup_fsWrite, fsLookup_fsErase,
        hne', htmp'],
      ⟨[Event.httpGet InfinibandOpsManagerUbuntu.key_url,
        Event.writeText InfinibandOpsManagerUbuntu.tmp_key_path body,
        Event.run ["apt-key", "add", InfinibandOpsManagerUbuntu.tmp_key_path],
        Event.unlink InfinibandOpsManagerUbuntu.tmp_key_path],
       by simp [hp, stWrite, stUnlink, stRun, fsLookup_fsErase, hne']⟩⟩

theorem centos_set_some (env : Env) (s : St) (p content : String)
    (hp : fsLookup s.fs p = some content)
    (hne : p ≠ InfinibandOpsManagerCentos.driver_repo_filepath) :
    fsLookup (InfinibandOpsManagerCentos._set_repository env (some p) s).2.fs
      InfinibandOpsManagerCentos.driver_repo_filepath = some content ∧
    ∃ rest, (InfinibandOpsManagerCentos._set_repository env (some p) s).2.trace =
      s.trace ++
      (if fsExists s.fs InfinibandOpsManagerCentos.driver_repo_filepath then
        [Event.unlink InfinibandOpsManagerCentos.driver_repo_filepath] else []) ++
      Event.rename p InfinibandOpsManagerCentos.driver_repo_filepath :: rest := by
  have hne' : ¬ InfinibandOpsManagerCentos.driver_repo_filepath = p := fun h => hne h.symm
  unfold InfinibandOpsManagerCentos._set_repository stRename
  cases hex : fsExists s.fs InfinibandOpsManagerCentos.driver_repo_filepath
  · exact ⟨by simp [hp, fsLookup_fsWrite], ⟨[], by simp [hp]⟩⟩
  · exact ⟨by simp [hp, stUnlink, fsLookup_fsWrite, fsLookup_fsErase, hne'],
      ⟨[], by simp [hp, stUnlink, fsLookup_fsErase, hne']⟩⟩

/-- C6: with no repository file supplied (`repo_path = None`), the Ubuntu
variant's install raises `InfinibandOpsError("No InfiniBand repository
provided")` and its only filesystem effect is the deletion of a pre-existing
repository file at the fixed destination (the trace holds at most that one
unlink and nothing else); the Centos variant instead fetches the hardcoded
default repository URL over HTTP, writes the response body verbatim to its
fixed destination path, and proceeds to the subsequent install steps (the
`yum clean expire-cache` invocation that follows repository setup is
performed). -/
theorem no_repository_behavior (env : Env) (fs : List (String × String)) (body : String) :
    (InfinibandOpsManagerUbuntu.install env none ⟨fs, []⟩).1 =
      Except.error (PyErr.infinibandOpsError "No InfiniBand repository provided") ∧
    (InfinibandOpsManagerUbuntu.install env none ⟨fs, []⟩).2.fs =
      fsErase fs InfinibandOpsManagerUbuntu.driver_repo_filepath ∧
    (InfinibandOpsManagerUbuntu.install env none ⟨fs, []⟩).2.trace =
      (if fsExists fs InfinibandOpsManagerUbuntu.driver_repo_filepath then
        [Event.unlink InfinibandOpsManagerUbuntu.driver_repo_filepath] else []) ∧
    (env.http InfinibandOpsManagerCentos.repo_url = Except.ok body →
      fsLookup (InfinibandOpsManagerCentos.install env none ⟨fs, []⟩).2.fs
          InfinibandOpsManagerCentos.driver_repo_filepath = some body ∧
      Event.httpGet InfinibandOpsManagerCentos.repo_url ∈
        (InfinibandOpsManagerCentos.install env none ⟨fs, []⟩).2.trace ∧
      Event.run ["yum", "clean", "expire-cache"] ∈
        (InfinibandOpsManagerCentos.install env none ⟨fs, []⟩).2.trace) := by
  have hu : InfinibandOpsManagerUbuntu.install env none ⟨fs, []⟩ =
      (Except.error (PyErr.infinibandOpsError "No InfiniBand repository provided"),
        if fsExists fs InfinibandOpsManagerUbuntu.driver_repo_filepath then
          stUnlink ⟨fs, []⟩ InfinibandOpsManagerUbuntu.driver_repo_filepath
        else ⟨fs, []⟩) := by
    unfold InfinibandOpsManagerUbuntu.install
    rw [ubuntu_set_none]
  refine ⟨by rw [hu], ?_, ?_, ?_⟩
  · rw [hu]
    cases hex : fsExists fs InfinibandOpsManagerUbuntu.driver_repo_filepath
    · simp [hex]
      exact (fsErase_of_not_exists fs _ hex).symm
    · simp [hex, stUnlink]
  · rw [hu]
    cases hex : fsExists fs InfinibandOpsManagerUbuntu.driver_repo_filepath <;>
      simp [hex, stUnlink]
  · intro h
    have hset := centos_set_none_ok env ⟨fs, []⟩ body h
    obtain ⟨hfs, tail, htr⟩ := centos_install_decomp env none ⟨fs, []⟩
    refine ⟨?_, ?_, ?_⟩
    · rw [hfs, hset]
      simp [stWrite, fsLookup_fsWrite]
    · rw [htr, hset]
      simp [stWrite]
    · exact centos_install_runs_clean env none ⟨fs, []⟩ _ hset

/-- C7: for every install call supplied with a repository file (a path `p`
holding `content`, distinct from the fixed destinations), in both variants
any pre-existing repository file at the fixed destination is deleted first
(the trace begins with the conditional unlink of the destination, strictly
before the rename), the supplied file's content is afterwards byte-identical
at the fixed destination path, and `remove()` deletes the repository file
(the fixed destination is the single repository-file path a variant ever
writes, so at most one such file exists at a time: install replaces it,
remove deletes it). -/
theorem repo_file_replacement (env : Env) (fs : List (String × String)) (p content : String)
    (hp : fsLookup fs p = some content)
    (hneu : p ≠ InfinibandOpsManagerUbuntu.driver_repo_filepath)
    (hnec : p ≠ InfinibandOpsManagerCentos.driver_repo_filepath) :
    fsLookup (InfinibandOpsManagerUbuntu.install env (some p) ⟨fs, []⟩).2.fs
      InfinibandOpsManagerUbuntu.driver_repo_filepath = some content ∧
    (∃ rest, (InfinibandOpsManagerUbuntu.install env (some p) ⟨fs, []⟩).2.trace =
      (if fsExists fs InfinibandOpsManagerUbuntu.driver_repo_filepath then
        [Event.unlink InfinibandOpsManagerUbuntu.driver_repo_filepath] else []) ++
      Event.rename p InfinibandOpsManagerUbuntu.driver_repo_filepath :: rest) ∧
    fsLookup (InfinibandOpsManagerCentos.install env (some p) ⟨fs, []⟩).2.fs
      InfinibandOpsManagerCentos.driver_repo_filepath = some content ∧
    (∃ rest, (InfinibandOpsManagerCentos.install env (some p) ⟨fs, []⟩).2.trace =
      (if fsExists fs InfinibandOpsManagerCentos.driver_repo_filepath then
        [Event.unlink InfinibandOpsManagerCentos.driver_repo_filepath] else []) ++
      Event.rename p InfinibandOpsManagerCentos.driver_repo_filepath :: rest) ∧
    fsLookup (InfinibandOpsManagerUbuntu.remove env ⟨fs, []⟩).2.fs
      InfinibandOpsManagerUbuntu.driver_repo_filepath = none ∧
    fsLookup (InfinibandOpsManagerCentos.remove env ⟨fs, []⟩).2.fs
      InfinibandOpsManagerCentos.driver_repo_filepath = none := by
  obtain ⟨hufs, tailu, hutr⟩ := ubuntu_install_decomp env (some p) ⟨fs, []⟩
  obtain ⟨husetfs, restu, husettr⟩ := ubuntu_set_some env ⟨fs, []⟩ p content hp hneu
  obtain ⟨hcfs, tailc, hctr⟩ := centos_install_decomp env (some p) ⟨fs, []⟩
  obtain ⟨hcsetfs, restc, hcsettr⟩ := centos_set_some env ⟨fs, []⟩ p content hp hnec
  refine ⟨?_, ?_, ?_, ?_, ubuntu_remove_deletes env ⟨fs, []⟩,
    centos_remove_deletes env ⟨fs, []⟩⟩
  · rw [hufs]
    exact husetfs
  · refine ⟨restu ++ tailu, ?_⟩
    rw [hutr, husettr]
    simp
  · rw [hcfs]
    exact hcsetfs
  · refine ⟨restc ++ tailc, ?_⟩
    rw [hctr, hcsettr]
    simp

theorem no_repository_behavior_witness :
    (InfinibandOpsManagerUbuntu.install envHappy none ⟨[], []⟩).1 =
      Except.error (PyErr.infinibandOpsError "No InfiniBand repository provided") ∧
    fsLookup (InfinibandOpsManagerCentos.install envHappy none ⟨[], []⟩).2.fs
      InfinibandOpsManagerCentos.driver_repo_filepath = some "REPOBODY" :=
  ⟨(no_repository_behavior envHappy [] "REPOBODY").1,
   ((no_repository_behavior envHappy [] "REPOBODY").2.2.2 rfl).1⟩

theorem repo_file_replacement_witness :
    fsLookup (InfinibandOpsManagerUbuntu.install envHappy (some "/srv/data/repo")
        ⟨[("/srv/data/repo", "REPOCONTENT")], []⟩).2.fs
      InfinibandOpsManagerUbuntu.driver_repo_filepath = some "REPOCONTENT" ∧
    fsLookup (InfinibandOpsManagerCentos.install envHappy (some "/srv/data/repo")
        ⟨[("/srv/data/repo", "REPOCONTENT")], []⟩).2.fs
      InfinibandOpsManagerCentos.driver_repo_filepath = some "REPOCONTENT" :=
  ⟨(repo_file_replacement envHappy [("/srv/data/repo", "REPOCONTENT")] "/srv/data/repo"
      "REPOCONTENT" rfl (by decide) (by decide)).1,
   (repo_file_replacement envHappy [("/srv/data/repo", "REPOCONTENT")] "/srv/data/repo"
      "REPOCONTENT" rfl (by decide) (by decide)).2.2.1⟩
